import Mathlib

/-!
Verification development for the DJ music organizer's library interchange
engine.  The Python sources under `src/` are shallowly embedded: pure
functions become Lean functions, per-object mutable state becomes explicit
record/state passing, machine floats that are only stored and compared are
modelled as rationals (Python's `str`/`float` round-trip on floats is
exact), fallible code returns `Except`.  XML elements are modelled as
records whose optional sub-elements and attributes are `Option`-valued,
matching `ElementTree`'s `find`/`get` semantics.
-/

deriving instance DecidableEq for Except

namespace DJMO

/-! ## Python-dictionary and string utilities -/

/-- Lookup in an association list with Python `dict` semantics: a later
binding of the same key overwrites an earlier one, so we take the last
matching pair. -/
def pyGet {α β : Type} [BEq α] (l : List (α × β)) (k : α) : Option β :=
  (l.reverse.find? (fun p => p.1 == k)).map (·.2)

/-- Accumulator walk for `pySplitWs`. -/
def splitWsAux : List Char → List Char → List (List Char)
  | [], acc => if acc = [] then [] else [acc.reverse]
  | c :: rest, acc =>
    if c.isWhitespace then
      if acc = [] then splitWsAux rest [] else acc.reverse :: splitWsAux rest []
    else splitWsAux rest (c :: acc)

/-- Python `str.split()` with no argument: split on runs of whitespace,
discarding empty tokens. -/
def pySplitWs (s : String) : List String :=
  (splitWsAux s.data []).map (fun l => ⟨l⟩)

/-- Fuel-indexed worker for `pyReplace`; the fuel starts at the string
length, enough since each step consumes at least one character. -/
def replaceAux (pat rep : List Char) : Nat → List Char → List Char
  | _, [] => []
  | 0, l => l
  | fuel + 1, c :: rest =>
    if pat.isPrefixOf (c :: rest) then
      rep ++ replaceAux pat rep fuel ((c :: rest).drop pat.length)
    else c :: replaceAux pat rep fuel rest

/-- Python `s.replace(pat, rep)` for a nonempty pattern: replace
left-to-right, non-overlapping.  (The empty-pattern case never occurs in
the embedded code; it is the identity here.) -/
def pyReplace (s pat rep : String) : String :=
  if pat.data = [] then s else ⟨replaceAux pat.data rep.data s.data.length s.data⟩

/-- `s.split("/")` keeping empty fields, as Python does. -/
def splitSlashAux : List Char → List Char → List String
  | [], acc => [⟨acc.reverse⟩]
  | c :: rest, acc =>
    if c = '/' then (⟨acc.reverse⟩ : String) :: splitSlashAux rest []
    else splitSlashAux rest (c :: acc)

def splitSlash (s : String) : List String :=
  splitSlashAux s.data []

/-- `name.split()[-1]`: the last whitespace-separated token, `none` when the
string has no token (Python raises `IndexError` there). -/
def lastTok (s : String) : Option String :=
  (pySplitWs s).getLast?

/-- Well-formed digit-and-underscore run for Python `int()`: underscores
only singly and strictly between digits. -/
def okDigitRun : List Char → Bool
  | [] => true
  | ['_'] => false
  | [c] => c.isDigit
  | '_' :: '_' :: _ => false
  | c :: rest => (c.isDigit || c = '_') && okDigitRun rest

/-- Numeric value of a digit-and-underscore run. -/
def digitRunVal (l : List Char) : Nat :=
  l.foldl (fun a ch => if ch = '_' then a else a * 10 + (ch.toNat - '0'.toNat)) 0

/-- Unsigned body of a Python integer literal: nonempty, starts with a
digit, well-formed underscore placement. -/
def pyIntBody (l : List Char) : Option Nat :=
  match l with
  | [] => none
  | c :: _ => if c.isDigit ∧ okDigitRun l then some (digitRunVal l) else none

/-- Python `int(token)` on an already-stripped token: optional sign, then a
nonempty digit run with optional single underscores between digits; `none`
models `ValueError`. -/
def pyParseInt (s : String) : Option Int :=
  match s.data with
  | [] => none
  | '+' :: rest => (pyIntBody rest).map (fun n => (n : Int))
  | '-' :: rest => (pyIntBody rest).map (fun n => -(n : Int))
  | l => (pyIntBody l).map (fun n => (n : Int))

/-- Round a rational to the nearest integer, ties to even (Python's float
formatting rule). -/
def rhe (q : ℚ) : ℤ :=
  let f : ℤ := ⌊q⌋
  let r : ℚ := q - f
  if r < 1/2 then f
  else if 1/2 < r then f + 1
  else if f % 2 = 0 then f else f + 1

/-- `f"{x:.3f}"` followed by re-reading the number: round to 3 decimal
places, ties to even.  Models the start-time formatting the converters
apply to every emitted marker. -/
def q3 (q : ℚ) : ℚ := (rhe (1000 * q) : ℚ) / 1000

/-- Number of non-overlapping occurrences of the two-character pattern
`".."` in a character list; Python's `s.count("..")`. -/
def countDD : List Char → Nat
  | [] => 0
  | [_] => 0
  | a :: b :: rest =>
    if a = '.' ∧ b = '.' then countDD rest + 1 else countDD (b :: rest)

/-- Python `s.startswith(pre)`. -/
def pyStartswith (s pre : String) : Bool :=
  pre.data.isPrefixOf s.data

/-! ## POSIX path helpers (`os.path`) -/

/-- Characters after the last `'/'`: `os.path.basename`. -/
def basenameData (l : List Char) : List Char :=
  ((l.reverse).takeWhile (fun c => c ≠ '/')).reverse

/-- Stem of a basename per CPython `splitext`: cut at the last dot provided
some character before it (within the basename) is not a dot; otherwise the
whole basename (so `".bashrc"` has no extension). -/
def stemData (b : List Char) : List Char :=
  let revFromDot := (b.reverse).dropWhile (fun c => c ≠ '.')
  match revFromDot with
  | [] => b
  | _ :: revPre =>
    if revPre.any (fun c => c ≠ '.') then revPre.reverse else b

/-- Extension of a basename per CPython `splitext` (includes the dot). -/
def extData (b : List Char) : List Char :=
  let stem := stemData b
  b.drop stem.length

/-- `os.path.splitext(os.path.basename(p))[0]`. -/
def pyStem (p : String) : String :=
  ⟨stemData (basenameData p.data)⟩

/-- `os.path.splitext(p)[1].lower()`. -/
def pyExtLower (p : String) : String :=
  ⟨(extData (basenameData p.data)).map Char.toLower⟩

/-- `os.path.dirname(p)` for POSIX paths. -/
def pyDirname (p : String) : String :=
  let l := p.data
  let head := l.take (l.length - (basenameData l).length)
  if head ≠ [] ∧ head.any (fun c => c ≠ '/') then
    ⟨(head.reverse.dropWhile (fun c => c = '/')).reverse⟩
  else ⟨head⟩

end DJMO

namespace DJMO

/-! ## Track model and Metadata Resolver (`src/track.py`)

`Track.__init__` / `_load_metadata` is embedded as a pure function from a
per-path environment (existence, readability, size, the tag data each
container-specific reader would return, and the values the bounded-excerpt
signal analyses would leave behind) to the resulting track record.  Tag
values already parsed by the underlying tag library are carried as
`Option`; a tag BPM is `Option (Option ℚ)`: present or not, and when
present whether Python `float()` of it succeeds. -/

structure TrackRec where
  file_path : String
  title : String
  artist : String
  album : String
  genre : String
  bpm : ℚ
  key : String
  energy : ℤ
  duration : ℚ
  year : String
  comment : String
  is_corrupt : Bool
  error_message : String
  deriving Repr, DecidableEq

/-- Fields as set by `Track.__init__` before `_load_metadata` runs. -/
def initTrack (p : String) : TrackRec :=
  { file_path := p, title := "", artist := "", album := "", genre := ""
    bpm := 0, key := "", energy := 0, duration := 0, year := ""
    comment := "", is_corrupt := false, error_message := "" }

/-- `Track._set_default_metadata`. -/
def setDefaultMetadata (t : TrackRec) : TrackRec :=
  { t with title := pyStem t.file_path, artist := "Unknown Artist"
           album := "Unknown Album", genre := "Unknown Genre"
           bpm := 0, key := "Unknown", energy := 0, duration := 0
           year := "", comment := "" }

/-- Data the FLAC reader (`mutagen.flac.FLAC`) yields for a file: header
validity, first value of each Vorbis tag the loader reads, parse result of
the `bpm` tag, and stream length. -/
structure FlacData where
  headerOk : Bool
  errText : String
  title? : Option String
  artist? : Option String
  album? : Option String
  genre? : Option String
  date? : Option String
  comment? : Option String
  bpmTag? : Option (Option ℚ)
  key? : Option String
  length? : Option ℚ
  deriving Repr

structure Mp3Data where
  headerOk : Bool
  errText : String
  hasTags : Bool
  tit2? : Option String
  tpe1? : Option String
  talb? : Option String
  tcon? : Option String
  tdrc? : Option String
  comm? : Option String
  tbpm? : Option (Option ℚ)
  tkey? : Option String
  length? : Option ℚ
  deriving Repr

structure Mp4Data where
  headerOk : Bool
  errText : String
  nam? : Option String
  art? : Option String
  alb? : Option String
  gen? : Option String
  day? : Option String
  cmt? : Option String
  tmpo? : Option (Option ℚ)
  length? : Option ℚ
  deriving Repr

/-- Data `mutagen.File` yields for the generic loader.  The loader reads
only title and artist keys out of the tag dictionary; it never reads a BPM
or key tag. -/
structure GenericData where
  readOk : Bool
  isNone : Bool
  errText : String
  hasTags : Bool
  tagDict : List (String × String)
  length? : Option ℚ
  deriving Repr

/-- Per-path environment for `_load_metadata`: cheap corruption signals,
container data per reader, and the values the three `librosa` analyses
would leave (`_calculate_bpm` / `_calculate_key` / `_calculate_energy`
catch their own failures and leave `0` / `"Unknown"` / `0`, so each is a
total value here). -/
structure PathEnv where
  present : Bool
  readable : Bool
  size : Nat
  flac : FlacData
  mp3 : Mp3Data
  mp4 : Mp4Data
  generic : GenericData
  analysisBpm : ℚ
  analysisKey : String
  analysisEnergy : ℤ
  deriving Repr

/-- `Track._load_flac_metadata`. -/
def loadFlacMetadata (d : FlacData) (t : TrackRec) : TrackRec :=
  if ¬ d.headerOk then
    setDefaultMetadata
      { t with is_corrupt := true
               error_message := "Invalid FLAC file: " ++ d.errText }
  else
    let t := { t with title := d.title?.getD (pyStem t.file_path)
                      artist := d.artist?.getD "Unknown Artist"
                      album := d.album?.getD "Unknown Album"
                      genre := d.genre?.getD "Unknown Genre"
                      year := d.date?.getD ""
                      comment := d.comment?.getD ""
                      duration := d.length?.getD 0 }
    let t := match d.bpmTag? with
      | some (some b) => { t with bpm := b }
      | some none => t
      | none => t
    match d.key? with
    | some k => { t with key := k }
    | none => t

/-- `Track._load_mp3_metadata`. -/
def loadMp3Metadata (d : Mp3Data) (t : TrackRec) : TrackRec :=
  if ¬ d.headerOk then
    setDefaultMetadata
      { t with is_corrupt := true
               error_message := "Invalid MP3 file: " ++ d.errText }
  else
    let t :=
      if d.hasTags then
        let t := { t with title := d.tit2?.getD (pyStem t.file_path)
                          artist := d.tpe1?.getD "Unknown Artist"
                          album := d.talb?.getD "Unknown Album"
                          genre := d.tcon?.getD "Unknown Genre"
                          year := d.tdrc?.getD ""
                          comment := d.comm?.getD "" }
        let t := match d.tbpm? with
          | some (some b) => { t with bpm := b }
          | some none => t
          | none => t
        match d.tkey? with
        | some k => { t with key := k }
        | none => t
      else t
    { t with duration := d.length?.getD 0 }

/-- `Track._load_mp4_metadata`. -/
def loadMp4Metadata (d : Mp4Data) (t : TrackRec) : TrackRec :=
  if ¬ d.headerOk then
    setDefaultMetadata
      { t with is_corrupt := true
               error_message := "Invalid MP4/AAC file: " ++ d.errText }
  else
    let t := { t with title := d.nam?.getD (pyStem t.file_path)
                      artist := d.art?.getD "Unknown Artist"
                      album := d.alb?.getD "Unknown Album"
                      genre := d.gen?.getD "Unknown Genre"
                      year := d.day?.getD ""
                      comment := d.cmt?.getD ""
                      duration := d.length?.getD 0 }
    match d.tmpo? with
    | some (some b) => { t with bpm := b }
    | some none => t
    | none => t

/-- `Track._load_generic_metadata`.  Only title and artist are read from
the tag dictionary; BPM and key tags are never consulted. -/
def loadGenericMetadata (d : GenericData) (t : TrackRec) : TrackRec :=
  if ¬ d.readOk then
    setDefaultMetadata
      { t with is_corrupt := true
               error_message := "Unable to read file format: " ++ d.errText }
  else if d.isNone then
    setDefaultMetadata
      { t with is_corrupt := true
               error_message := "Unable to read file format" }
  else
    let t := { t with duration := d.length?.getD 0 }
    if d.hasTags then
      let title :=
        match pyGet d.tagDict "title" with
        | some v => v
        | none => match pyGet d.tagDict "TIT2" with
          | some v => v
          | none => match pyGet d.tagDict "NAME" with
            | some v => v
            | none => pyStem t.file_path
      let artist :=
        match pyGet d.tagDict "artist" with
        | some v => v
        | none => match pyGet d.tagDict "TPE1" with
          | some v => v
          | none => match pyGet d.tagDict "ARTIST" with
            | some v => v
            | none => "Unknown Artist"
      { t with title := title, artist := artist }
    else t

/-- The tail of `Track._load_metadata` (lines 78–103): on a non-corrupt
track, run BPM analysis only when the tag-derived BPM is 0, key analysis
only when the key is missing or "Unknown", and always attempt energy. -/
def postAnalysis (env : PathEnv) (t : TrackRec) : TrackRec :=
  if ¬ t.is_corrupt then
    let t := if t.bpm = 0 then { t with bpm := env.analysisBpm } else t
    let t :=
      if t.key = "" ∨ t.key = "Unknown" then { t with key := env.analysisKey }
      else t
    { t with energy := env.analysisEnergy }
  else t

/-- `Track._load_metadata`: staged corruption checks, dispatch by lowered
extension, then fallback analyses for BPM, key and energy.  Total: every
failure path in the source is caught and recorded on the track. -/
def loadMetadata (env : PathEnv) (p : String) : TrackRec :=
  let t := initTrack p
  if ¬ env.present then
    setDefaultMetadata
      { t with is_corrupt := true, error_message := "File does not exist" }
  else if ¬ env.readable then
    setDefaultMetadata
      { t with is_corrupt := true, error_message := "File is not readable" }
  else if env.size < 1024 then
    setDefaultMetadata
      { t with is_corrupt := true
               error_message :=
                 "File is too small (" ++ toString env.size ++ " bytes)" }
  else
    let ext := pyExtLower p
    postAnalysis env
      (if ext = ".flac" then loadFlacMetadata env.flac t
       else if ext = ".mp3" then loadMp3Metadata env.mp3 t
       else if ext = ".m4a" ∨ ext = ".aac" then loadMp4Metadata env.mp4 t
       else loadGenericMetadata env.generic t)

end DJMO

namespace DJMO

/-! ## Cross-format converters (`src/nml_to_rekordbox.py`, `src/rekordbox_to_nml.py`)

XML documents are embedded as records.  `Option` on a field is element or
attribute presence (`find` / `get` returning `None`).  Numeric attributes
that are only parsed and re-printed (`START`, `TYPE`, `BPM`, ...) are
carried as `ℤ`/`ℚ`; code paths where the source would raise (`int()` /
`IndexError` on an empty `NAME`, `find(...)` returning `None` followed by
an attribute access) return `Except.error`. -/

/-- A Traktor `CUE_V2` element: `START`, `TYPE` and `NAME` attributes. -/
structure CueV2 where
  start? : Option ℚ
  type? : Option ℤ
  name? : Option String
  deriving Repr, DecidableEq

/-- A Rekordbox `POSITION_MARK` element. -/
structure PosMark where
  start? : Option ℚ
  type? : Option ℤ
  name? : Option String
  num? : Option ℤ
  red? : Option ℤ
  green? : Option ℤ
  blue? : Option ℤ
  deriving Repr, DecidableEq

/-- `int(name.split()[-1])`: `none` models the uncaught `IndexError` /
`ValueError`. -/
def parseHotNum (name : String) : Option ℤ :=
  (lastTok name).bind pyParseInt

/-- One iteration of `NMLToRekordboxConverter._convert_cue_points`:
the marks appended to the `TRACK` element for one `CUE_V2`, and the updated
`first_hotcue_processed` flag.  A cue of a type other than 0/1/4/9 leaves a
`POSITION_MARK` carrying only `Start` (the element is created before the
type dispatch).  A hot cue whose `NAME` has no parseable trailing integer
aborts with an exception. -/
def convCueF (mapHot : Bool) (processed : Bool) (c : CueV2) :
    Except String (List PosMark × Bool) :=
  let t := c.type?.getD 0
  let start := q3 (c.start?.getD 0)
  let name := c.name?.getD ""
  if t = 0 then
    match parseHotNum name with
    | none => .error "invalid hot cue NAME: int(name.split()[-1]) failed"
    | some n =>
      if ¬ processed ∧ mapHot then
        .ok ([{ start? := some start, type? := some 2
                name? := some ("Memory " ++ toString (n + 1))
                num? := some (-1), red? := some 0, green? := some 0
                blue? := some 255 },
              { start? := some start, type? := some 0
                name? := some ("Hot Cue " ++ toString (n + 1))
                num? := some (-1), red? := some 255, green? := some 0
                blue? := some 0 }], true)
      else
        .ok ([{ start? := some start, type? := some 0
                name? := some ("Hot Cue " ++ toString (n + 1))
                num? := some (-1), red? := some 255, green? := some 0
                blue? := some 0 }], processed)
  else if t = 1 then
    .ok ([{ start? := some start, type? := some 1, name? := some name
            num? := some (-1), red? := some 0, green? := some 255
            blue? := some 0 }], processed)
  else if t = 4 ∨ t = 9 then
    .ok ([{ start? := some start, type? := some 4, name? := some "Grid"
            num? := some (-1), red? := some 0, green? := some 0
            blue? := some 0 }], processed)
  else
    .ok ([{ start? := some start, type? := none, name? := none
            num? := none, red? := none, green? := none, blue? := none }],
         processed)

/-- `NMLToRekordboxConverter._convert_cue_points` over the whole `CUE_V2`
list, threading the per-track `first_hotcue_processed` flag. -/
def convCuesF (mapHot : Bool) : Bool → List CueV2 → Except String (List PosMark)
  | _, [] => .ok []
  | processed, c :: cs => do
    let (ms, processed') ← convCueF mapHot processed c
    let rest ← convCuesF mapHot processed' cs
    .ok (ms ++ rest)

/-- One iteration of `RekordboxToNMLConverter._convert_cue_points`: the one
`CUE_V2` element appended for a `POSITION_MARK`.  The element is created
(with `START` set) before the type dispatch, so a memory cue with the
option disabled — and any mark of an unknown type — leaves a residual
element with neither `TYPE` nor `NAME`.  With the option enabled, an empty
memory-cue name aborts (`name.split()[-1]` raises `IndexError`). -/
def convCueR (mapMem : Bool) (m : PosMark) : Except String CueV2 :=
  let t := m.type?.getD 0
  let start := q3 (m.start?.getD 0)
  let name := m.name?.getD ""
  if t = 0 then
    .ok { start? := some start, type? := some 0, name? := some name }
  else if t = 1 then
    .ok { start? := some start, type? := some 1, name? := some name }
  else if t = 2 then
    if mapMem then
      match lastTok name with
      | none => .error "empty memory cue NAME: name.split()[-1] failed"
      | some tok =>
        .ok { start? := some start, type? := some 0
              name? := some ("Hot Cue " ++ tok) }
    else
      .ok { start? := some start, type? := none, name? := none }
  else if t = 4 then
    .ok { start? := some start, type? := some 4, name? := some "Grid" }
  else
    .ok { start? := some start, type? := none, name? := none }

/-- `RekordboxToNMLConverter._convert_cue_points` over the mark list: one
`CUE_V2` element appended per `POSITION_MARK`, in order. -/
def convCuesR (mapMem : Bool) : List PosMark → Except String (List CueV2)
  | [] => .ok []
  | m :: ms => do
    let c ← convCueR mapMem m
    let cs ← convCuesR mapMem ms
    .ok (c :: cs)

/-! ### Document models -/

structure NMLTempo where
  bpm? : Option ℚ
  quality? : Option String
  deriving Repr, DecidableEq

structure NMLKeyEl where
  value? : Option String
  deriving Repr, DecidableEq

structure NMLLocation where
  file? : Option String
  volume? : Option String
  dir? : Option String
  deriving Repr, DecidableEq

structure NMLInfo where
  genre? : Option String
  playtime? : Option String
  bitrate? : Option String
  deriving Repr, DecidableEq

/-- A Traktor collection `ENTRY`.  Text-bearing children (`TITLE`,
`ARTIST`, `PRIMARYKEY`) are `Option (Option String)`: element presence,
then text (an empty element parses back with text `None`). -/
structure NMLEntry where
  id? : Option String
  primarykey? : Option (Option String)
  title? : Option (Option String)
  artist? : Option (Option String)
  tempo? : Option NMLTempo
  key? : Option NMLKeyEl
  location? : Option NMLLocation
  info? : Option NMLInfo
  cues : List CueV2
  deriving Repr, DecidableEq

/-- A direct child `NODE` of a playlist `NODE` under `SETS`. -/
structure NMLSetChild where
  type? : Option String
  key? : Option String
  deriving Repr, DecidableEq

/-- A direct child `NODE` of `SETS` (the converters never recurse deeper). -/
structure NMLSetNode where
  type? : Option String
  name? : Option String
  children : List NMLSetChild
  deriving Repr, DecidableEq

structure NMLDoc where
  collection? : Option (List NMLEntry)
  sets? : Option (List NMLSetNode)
  deriving Repr, DecidableEq

structure RBTempo where
  inizio : String
  bpm : ℚ
  metro : String
  battito : String
  deriving Repr, DecidableEq

/-- A Rekordbox collection `TRACK` element. -/
structure RBTrack where
  trackID? : Option String
  name? : Option String
  artist? : Option String
  album? : Option String
  genre? : Option String
  kind? : Option String
  size? : Option String
  totalTime? : Option String
  avgBpm? : Option ℚ
  bitRate? : Option String
  sampleRate? : Option String
  location? : Option String
  tonality? : Option String
  rating? : Option String
  tempo? : Option RBTempo
  marks : List PosMark
  deriving Repr, DecidableEq

/-- A playlist `NODE` under the Rekordbox root node; `trackRefs` carries the
`TrackID` attribute of each `TRACK` child. -/
structure RBPlaylistNode where
  type? : Option String
  name? : Option String
  trackRefs : List (Option String)
  deriving Repr, DecidableEq

/-- The root `NODE` under `PLAYLISTS`. -/
structure RBRoot where
  type? : Option String
  name? : Option String
  children : List RBPlaylistNode
  deriving Repr, DecidableEq

structure RBDoc where
  collection? : Option (List RBTrack)
  root? : Option RBRoot
  deriving Repr, DecidableEq

/-- Models `uuid.uuid4()`: an opaque, fresh, nonempty identifier string for
the i-th generated id of a run. -/
def uuidStr (i : Nat) : String := "uuid-" ++ toString i

/-- `NMLToRekordboxConverter._convert_file_path`. -/
def convFilePathF (p : String) : String :=
  "file://localhost/" ++ pyReplace p "\\" "/"

/-- `RekordboxToNMLConverter._convert_file_path`. -/
def convFilePathR (p : String) : String :=
  pyReplace (pyReplace p "file://localhost/" "") "/" "\\"

/-- `NMLToRekordboxConverter._convert_track` for the entry with 0-based
index `idx` (the id counter starts at 1).  `find(...)` returning `None`
followed by a `.text`/`.get` access raises `AttributeError`, hence
`Except`; only the ok/error distinction of that exception is modelled. -/
def convTrackF (mapHot : Bool) (idx : Nat) (e : NMLEntry) :
    Except String RBTrack :=
  match e.title?, e.artist?, e.info?, e.tempo?, e.location?, e.key? with
  | some titleText, some artistText, some info, some tempo, some loc,
    some keyEl =>
    match loc.file? with
    | none => .error "AttributeError: LOCATION has no FILE attribute"
    | some file =>
      (convCuesF mapHot false e.cues).map (fun marks =>
        { trackID? := some (toString (idx + 1))
          name? := titleText
          artist? := artistText
          album? := some "Unknown"
          genre? := some (info.genre?.getD "")
          kind? := some "MP3 File"
          size? := some "0"
          totalTime? := some (info.playtime?.getD "0")
          avgBpm? := some (tempo.bpm?.getD 0)
          bitRate? := some (info.bitrate?.getD "320000")
          sampleRate? := some "44100"
          location? := some (convFilePathF file)
          tonality? := some (keyEl.value?.getD "")
          rating? := some "0"
          tempo? := some { inizio := "0.000", bpm := tempo.bpm?.getD 0
                           metro := "4/4", battito := "1" }
          marks := marks })
  | _, _, _, _, _, _ =>
    .error "AttributeError: entry lacks a required child element"

/-- The collection loop of `convert_nml_to_rekordbox`: convert each entry
in order, the id counter running from `i + 1`. -/
def convTracksF (mapHot : Bool) : Nat → List NMLEntry → Except String (List RBTrack)
  | _, [] => .ok []
  | i, e :: es => do
    let t ← convTrackF mapHot i e
    let ts ← convTracksF mapHot (i + 1) es
    .ok (t :: ts)

/-- The identity remapping table the forward converter has built once the
whole collection is converted: Traktor `ID` attribute (possibly absent,
Python `None`) to the sequential Rekordbox id; `pyGet` on it yields
Python-dict overwrite semantics. -/
def idMapF : Nat → List NMLEntry → List (Option String × String)
  | _, [] => []
  | i, e :: es => (e.id?, toString (i + 1)) :: idMapF (i + 1) es

/-- `NMLToRekordboxConverter._convert_playlists`: a reference whose source
identity is absent from the table is emitted with the placeholder id
`"0"` (`self.track_id_map.get(traktor_id, "0")`). -/
def convPlaylistsF (idMap : List (Option String × String))
    (sets : List NMLSetNode) : List RBPlaylistNode :=
  sets.filterMap (fun node =>
    if node.type? = some "PLAYLIST" then
      some { type? := some "1"
             name? := some (node.name?.getD "")
             trackRefs := node.children.filterMap (fun tn =>
               if tn.type? = some "TRACK" then
                 some (some ((pyGet idMap tn.key?).getD "0"))
               else none) }
    else none)

/-- `NMLToRekordboxConverter.convert_nml_to_rekordbox` on a parsed
document. -/
def convertNmlToRekordbox (mapHot : Bool) (doc : NMLDoc) :
    Except String RBDoc := do
  let entries := (doc.collection?).getD []
  let tracks ← convTracksF mapHot 0 entries
  let root? := doc.sets?.map (fun sets =>
    { type? := some "0", name? := some "Root"
      children := convPlaylistsF (idMapF 0 entries) sets : RBRoot })
  .ok { collection? := (doc.collection?).map (fun _ => tracks)
        root? := root? }

/-- `RekordboxToNMLConverter._convert_track` for the track with 0-based
index `idx`; the fresh Traktor id is `uuidStr idx`.  Only the cue
conversion can raise. -/
def convTrackR (mapMem : Bool) (idx : Nat) (t : RBTrack) :
    Except String NMLEntry :=
  (convCuesR mapMem t.marks).map (fun cues =>
    { id? := some (uuidStr idx)
      primarykey? := none
      title? := some (some (t.name?.getD ""))
      artist? := some (some (t.artist?.getD ""))
      tempo? := some { bpm? := some (t.avgBpm?.getD 0), quality? := none }
      key? := some { value? := some (t.tonality?.getD "") }
      location? := some { file? := some (convFilePathR (t.location?.getD ""))
                          volume? := none, dir? := none }
      info? := some { genre? := some (t.genre?.getD "")
                      playtime? := some (t.totalTime?.getD "0")
                      bitrate? := some (t.bitRate?.getD "320000") }
      cues := cues })

/-- The collection loop of `convert_rekordbox_to_nml`. -/
def convTracksR (mapMem : Bool) : Nat → List RBTrack → Except String (List NMLEntry)
  | _, [] => .ok []
  | i, t :: ts => do
    let e ← convTrackR mapMem i t
    let es ← convTracksR mapMem (i + 1) ts
    .ok (e :: es)

/-- The identity table of the reverse converter: Rekordbox `TrackID`
(possibly absent) to the freshly minted Traktor uuid. -/
def idMapR : Nat → List RBTrack → List (Option String × String)
  | _, [] => []
  | i, t :: ts => (t.trackID?, uuidStr i) :: idMapR (i + 1) ts

/-- `RekordboxToNMLConverter._convert_playlists`: a reference is emitted
only when the table lookup yields a truthy (nonempty) id
(`if traktor_id:`); otherwise it is dropped. -/
def convPlaylistsR (idMap : List (Option String × String))
    (root : RBRoot) : List NMLSetNode :=
  root.children.filterMap (fun node =>
    if node.type? = some "1" then
      some { type? := some "PLAYLIST"
             name? := some (node.name?.getD "")
             children := node.trackRefs.filterMap (fun rid =>
               match pyGet idMap rid with
               | some u => if u ≠ "" then some { type? := some "TRACK", key? := some u } else none
               | none => none) }
    else none)

/-- `RekordboxToNMLConverter.convert_rekordbox_to_nml` on a parsed
document.  `root?` collapses `find("PLAYLISTS")` and the inner
`find("NODE")`: both absent cases leave an empty `SETS`. -/
def convertRekordboxToNml (mapMem : Bool) (doc : RBDoc) :
    Except String NMLDoc := do
  let tracks := (doc.collection?).getD []
  let entries ← convTracksR mapMem 0 tracks
  let sets := match doc.root? with
    | some root => convPlaylistsR (idMapR 0 tracks) root
    | none => []
  .ok { collection? := (doc.collection?).map (fun _ => entries)
        sets? := some sets }

end DJMO

namespace DJMO

/-! ## Hierarchical codec (`src/nml_handler.py`)

`create_new_nml` + `add_track_to_collection` per track + `save_nml`, then
`load_nml` + `get_collection_tracks`.  Serializing and re-parsing an XML
tree preserves elements and attributes but turns an empty text node into a
missing one (`<TITLE></TITLE>` parses back with `text = None`); that
normalization is `serializeParseEntry`. -/

/-- `NMLHandler.add_track_to_collection` for one track; the generated uuid
of the i-th added track is `uuidStr i`. -/
def addTrackEntry (i : Nat) (t : TrackRec) : NMLEntry :=
  { id? := some (uuidStr i)
    primarykey? := some (some (uuidStr i))
    title? := some (some t.title)
    artist? := some (some t.artist)
    tempo? := some { bpm? := some t.bpm, quality? := some "100" }
    key? := some { value? := some t.key }
    location? := some { file? := some t.file_path, volume? := some "volume"
                        dir? := some (pyDirname t.file_path) }
    info? := some { genre? := some t.genre, playtime? := some "0"
                    bitrate? := some "320" }
    cues := [] }

/-- The collection built by calling `add_track_to_collection` on each
track in order. -/
def addTracks : Nat → List TrackRec → List NMLEntry
  | _, [] => []
  | i, t :: ts => addTrackEntry i t :: addTracks (i + 1) ts

/-- `create_new_nml` followed by `add_track_to_collection` for each track:
the in-memory document just before `save_nml`. -/
def writeNml (tracks : List TrackRec) : NMLDoc :=
  { collection? := some (addTracks 0 tracks)
    sets? := some [] }

/-- Empty text becomes a missing text on an XML write/parse round trip. -/
def normText (x : Option (Option String)) : Option (Option String) :=
  match x with
  | some (some s) => if s = "" then some none else some (some s)
  | x => x

/-- `save_nml` then `load_nml`: the entry after the document has been
written to disk and parsed back. -/
def serializeParseEntry (e : NMLEntry) : NMLEntry :=
  { e with title? := normText e.title?
           artist? := normText e.artist?
           primarykey? := normText e.primarykey? }

def serializeParseDoc (d : NMLDoc) : NMLDoc :=
  { d with collection? := (d.collection?).map (·.map serializeParseEntry) }

/-- The per-entry record `get_collection_tracks` builds (`title`/`artist`
may be Python `None` when the text node is missing). -/
structure ReadTrack where
  id : String
  title : Option String
  artist : Option String
  bpm : ℚ
  key : String
  file_path : String
  genre : String
  deriving Repr, DecidableEq

/-- One entry of `NMLHandler.get_collection_tracks`: skipped (`none`) when
the `LOCATION` element is missing or the `FILE` attribute is empty. -/
def readEntry (e : NMLEntry) : Option ReadTrack :=
  match e.location? with
  | none => none
  | some loc =>
    let t : ReadTrack :=
      { id := e.id?.getD (uuidStr 0)
        title := match e.title? with
          | some txt => txt
          | none => some "Unknown Title"
        artist := match e.artist? with
          | some txt => txt
          | none => some "Unknown Artist"
        bpm := match e.tempo? with
          | some tp => tp.bpm?.getD 0
          | none => 0
        key := match e.key? with
          | some k => k.value?.getD ""
          | none => ""
        file_path := loc.file?.getD ""
        genre := match e.info? with
          | some i => i.genre?.getD ""
          | none => "" }
    if t.file_path ≠ "" then some t else none

/-- `NMLHandler.get_collection_tracks`. -/
def getCollectionTracks (d : NMLDoc) : List ReadTrack :=
  match d.collection? with
  | none => []
  | some entries => entries.filterMap readEntry

/-- Export then re-import through the on-disk document. -/
def nmlRoundTrip (tracks : List TrackRec) : List ReadTrack :=
  getCollectionTracks (serializeParseDoc (writeNml tracks))

end DJMO

namespace DJMO

/-! ## Scanner and migration orchestrator (`src/music_scanner.py`) -/

/-- The processing loop of `MusicScanner.scan` (lines 157–193) over the
discovered file list.  Cancellation is cooperative: the flag is polled at
the top of each iteration; `cancelAt` is the number of files that have been
fully processed when the flag becomes observable, so the check at iteration
`processed` sees it raised iff `cancelAt ≤ processed`. -/
def scanProcessAux (env : String → PathEnv) (cancelAt : Nat) :
    Nat → List String → List TrackRec
  | _, [] => []
  | processed, f :: fs =>
    if cancelAt ≤ processed then []
    else loadMetadata (env f) f :: scanProcessAux env cancelAt (processed + 1) fs

/-- `MusicScanner.scan`'s track list when cancellation is requested after
`cancelAt` files have been processed. -/
def scanProcess (env : String → PathEnv) (cancelAt : Nat)
    (files : List String) : List TrackRec :=
  scanProcessAux env cancelAt 0 files

/-- The sequence of percent values `MusicScanner.migrate_format` passes to
its progress callback for a job of `n` tracks after reading: `0` and `30`
at the phase boundaries, `30 + (i / total * 40)` (a float in the source)
for each processed track, then `70` and `100`.  The `else 50` branch is
unreachable because the loop body never runs when `total = 0`. -/
def migratePercents (n : Nat) : List ℚ :=
  [0, 30] ++
  ((List.range n).map (fun i : ℕ =>
    if 0 < n then 30 + ((i : ℚ) / (n : ℚ) * 40) else 50)) ++
  [70, 100]

/-- POSIX `normpath` component walk for an absolute path: drop `""` and
`"."`, pop on `".."` (and drop `".."` at the root). -/
def normWalk : List String → List String → List String
  | acc, [] => acc.reverse
  | acc, c :: cs =>
    if c = "" ∨ c = "." then normWalk acc cs
    else if c = ".." then normWalk (acc.drop 1) cs
    else normWalk (c :: acc) cs

/-- Components of `abspath(p)` for an absolute POSIX path `p` (as used by
`posixpath.relpath`: normalize, then keep nonempty components). -/
def absComps (p : String) : List String :=
  normWalk [] (splitSlash p)

/-- Length of the common prefix of two component lists
(`os.path.commonprefix`). -/
def commonLen : List String → List String → Nat
  | a :: as', b :: bs => if a = b then commonLen as' bs + 1 else 0
  | _, _ => 0

/-- Component list of `posixpath.relpath(p, start)` for absolute paths. -/
def relComps (p start : String) : List String :=
  let pl := absComps p
  let sl := absComps start
  let i := commonLen sl pl
  List.replicate (sl.length - i) ".." ++ pl.drop i

/-- `'/'.join`, on character data. -/
def joinData : List (List Char) → List Char
  | [] => []
  | [x] => x
  | x :: xs => x ++ '/' :: joinData xs

/-- `'/'.join(components)` built directly from character data. -/
def joinComps (l : List String) : String :=
  ⟨joinData (l.map String.data)⟩

/-- `posixpath.relpath(p, start)` for absolute paths. -/
def pyRelpath (p start : String) : String :=
  match relComps p start with
  | [] => "."
  | comps => joinComps comps

/-- The path line `MusicScanner.write_m3u_playlist` emits for one track:
the relative path, unless it starts with `".."` and the whole string
contains more than two occurrences of the substring `".."` (Python
`rel_path.count('..') > 2`), in which case the absolute path.  An empty
track path makes `relpath` raise, which the bare `except` turns into the
absolute (empty) path. -/
def emitM3uLine (trackPath baseDir : String) : String :=
  if trackPath = "" then trackPath
  else
    let rel := pyRelpath trackPath baseDir
    if pyStartswith rel ".." ∧ 2 < countDD rel.data then trackPath
    else rel

/-- Modelled from the spec's words for comparison: the relative path is
abandoned for the absolute one exactly when it would traverse more than two
parent directories, i.e. when more than two of its components are
`".."`. -/
def emitM3uLineSpec (trackPath baseDir : String) : String :=
  if 2 < (relComps trackPath baseDir).countP (fun c => c = "..") then trackPath
  else pyRelpath trackPath baseDir

end DJMO

namespace DJMO

/-! ## Sample data reused by concrete witnesses and counterexamples -/

def flacNone : FlacData :=
  { headerOk := true, errText := "", title? := none, artist? := none
    album? := none, genre? := none, date? := none, comment? := none
    bpmTag? := none, key? := none, length? := none }

def mp3None : Mp3Data :=
  { headerOk := true, errText := "", hasTags := false, tit2? := none
    tpe1? := none, talb? := none, tcon? := none, tdrc? := none
    comm? := none, tbpm? := none, tkey? := none, length? := none }

def mp4None : Mp4Data :=
  { headerOk := true, errText := "", nam? := none, art? := none
    alb? := none, gen? := none, day? := none, cmt? := none
    tmpo? := none, length? := none }

def genNone : GenericData :=
  { readOk := true, isNone := false, errText := "", hasTags := false
    tagDict := [], length? := none }

/-- A healthy baseline environment whose signal analyses would report
BPM 95, key "A", energy 40. -/
def envBase : PathEnv :=
  { present := true, readable := true, size := 4096, flac := flacNone
    mp3 := mp3None, mp4 := mp4None, generic := genNone
    analysisBpm := 95, analysisKey := "A", analysisEnergy := 40 }

def envMissing : PathEnv := { envBase with present := false }

/-- Environment of a healthy `.wav` file whose embedded tags carry
`TBPM = 120` — data the generic loader receives but never reads. -/
def envWavTagged : PathEnv :=
  { envBase with
      generic := { genNone with
                   hasTags := true,
                   tagDict := [("TBPM", "120"), ("title", "Song")] } }

def envFlacBpm : PathEnv :=
  { envBase with flac := { flacNone with bpmTag? := some (some 128) } }

end DJMO

namespace DJMO

/-! ## Claims -/

/-- **C5.** For every path that does not exist on disk, the resolver marks
the track corrupt, leaves `bpm = 0.0`, sets the title to the filename stem,
and returns normally (the embedding is a total function, mirroring the
source's catch-all handler). -/
theorem metadata_missing_path_defaults (env : PathEnv) (p : String)
    (h : env.present = false) :
    (loadMetadata env p).is_corrupt = true ∧
    (loadMetadata env p).bpm = 0 ∧
    (loadMetadata env p).title = pyStem p ∧
    (loadMetadata env p).error_message = "File does not exist" := by
  simp [loadMetadata, h, setDefaultMetadata, initTrack]

theorem metadata_missing_path_defaults_witness :
    envMissing.present = false ∧
    ((loadMetadata envMissing "/music/a.mp3").is_corrupt = true ∧
     (loadMetadata envMissing "/music/a.mp3").bpm = 0 ∧
     (loadMetadata envMissing "/music/a.mp3").title = pyStem "/music/a.mp3" ∧
     (loadMetadata envMissing "/music/a.mp3").error_message = "File does not exist") :=
  ⟨rfl, metadata_missing_path_defaults envMissing "/music/a.mp3" rfl⟩

/-- **C6, counterexample.** A valid `.wav` file whose tags carry `TBPM = 120`
is dispatched to the generic loader, which never reads a BPM tag; the
signal-analysis estimate (95 here) overwrites it, so the resolved BPM is
not the tagged value. -/
theorem tag_bpm_ignored_for_wav :
    envWavTagged.generic.tagDict = [("TBPM", "120"), ("title", "Song")] ∧
    (loadMetadata envWavTagged "/music/song.wav").is_corrupt = false ∧
    (loadMetadata envWavTagged "/music/song.wav").bpm = 95 ∧
    (95 : ℚ) ≠ 120 := by
  refine ⟨rfl, ?_, ?_, by norm_num⟩ <;> decide

/-- `postAnalysis` never changes a nonzero BPM of a healthy track, and never
corrupts it. -/
theorem postAnalysis_keeps_bpm (env : PathEnv) (t : TrackRec)
    (hc : t.is_corrupt = false) (hbpm : t.bpm ≠ 0) :
    (postAnalysis env t).bpm = t.bpm ∧ (postAnalysis env t).is_corrupt = false := by
  by_cases hk : t.key = "" ∨ t.key = "Unknown" <;>
    simp [postAnalysis, hc, hbpm, hk]

theorem loadFlacMetadata_tag_bpm (d : FlacData) (t : TrackRec) (B : ℚ)
    (hok : d.headerOk = true) (htag : d.bpmTag? = some (some B))
    (hc : t.is_corrupt = false) :
    (loadFlacMetadata d t).bpm = B ∧ (loadFlacMetadata d t).is_corrupt = false := by
  simp only [loadFlacMetadata, hok, htag]
  cases d.key? <;> simp [hc]

theorem loadMp3Metadata_tag_bpm (d : Mp3Data) (t : TrackRec) (B : ℚ)
    (hok : d.headerOk = true) (htags : d.hasTags = true)
    (htag : d.tbpm? = some (some B)) (hc : t.is_corrupt = false) :
    (loadMp3Metadata d t).bpm = B ∧ (loadMp3Metadata d t).is_corrupt = false := by
  simp only [loadMp3Metadata, hok, htags, htag]
  cases d.tkey? <;> simp [hc]

theorem loadMp4Metadata_tag_bpm (d : Mp4Data) (t : TrackRec) (B : ℚ)
    (hok : d.headerOk = true) (htag : d.tmpo? = some (some B))
    (hc : t.is_corrupt = false) :
    (loadMp4Metadata d t).bpm = B ∧ (loadMp4Metadata d t).is_corrupt = false := by
  simp [loadMp4Metadata, hok, htag, hc]

/-- **C6, amended.** For files dispatched to the FLAC/MP3/MP4 tag readers
(extensions `.flac`, `.mp3`, `.m4a`, `.aac`), a parseable tag BPM `B > 0`
survives: the analysis step only runs when the tag-derived BPM is 0, so the
resolved BPM equals `B` whatever the analysis would have returned.  (For
other extensions the generic reader ignores tag BPM entirely.) -/
theorem tag_bpm_precedence (env : PathEnv) (p : String) (B : ℚ)
    (hpres : env.present = true) (hread : env.readable = true)
    (hsize : 1024 ≤ env.size)
    (hdisp :
      (pyExtLower p = ".flac" ∧ env.flac.headerOk = true ∧
        env.flac.bpmTag? = some (some B)) ∨
      (pyExtLower p = ".mp3" ∧ env.mp3.headerOk = true ∧
        env.mp3.hasTags = true ∧ env.mp3.tbpm? = some (some B)) ∨
      ((pyExtLower p = ".m4a" ∨ pyExtLower p = ".aac") ∧
        env.mp4.headerOk = true ∧ env.mp4.tmpo? = some (some B)))
    (hB : 0 < B) :
    (loadMetadata env p).bpm = B ∧ (loadMetadata env p).is_corrupt = false := by
  have hs : ¬ env.size < 1024 := by omega
  have hBne : B ≠ 0 := ne_of_gt hB
  have hinit : (initTrack p).is_corrupt = false := rfl
  rcases hdisp with ⟨hext, hok, htag⟩ | ⟨hext, hok, htags, htag⟩ | ⟨hext, hok, htag⟩
  · have hld := loadFlacMetadata_tag_bpm env.flac (initTrack p) B hok htag hinit
    have hpa := postAnalysis_keeps_bpm env (loadFlacMetadata env.flac (initTrack p))
      hld.2 (hld.1 ▸ hBne)
    simp only [loadMetadata, hpres, hread, hs, hext]
    simp only [loadMetadata, hpres, hread, hs, hext] at hpa ⊢
    simpa [hld.1] using hpa
  · have hld := loadMp3Metadata_tag_bpm env.mp3 (initTrack p) B hok htags htag hinit
    have hpa := postAnalysis_keeps_bpm env (loadMp3Metadata env.mp3 (initTrack p))
      hld.2 (hld.1 ▸ hBne)
    simp only [loadMetadata, hpres, hread, hs, hext]
    simpa [hld.1] using hpa
  · have hld := loadMp4Metadata_tag_bpm env.mp4 (initTrack p) B hok htag hinit
    have hpa := postAnalysis_keeps_bpm env (loadMp4Metadata env.mp4 (initTrack p))
      hld.2 (hld.1 ▸ hBne)
    rcases hext with hext | hext <;>
    · simp only [loadMetadata, hpres, hread, hs, hext]
      simpa [hld.1] using hpa

theorem tag_bpm_precedence_witness :
    (envFlacBpm.present = true ∧ envFlacBpm.readable = true ∧
     1024 ≤ envFlacBpm.size ∧
     pyExtLower "/music/a.flac" = ".flac" ∧
     envFlacBpm.flac.headerOk = true ∧
     envFlacBpm.flac.bpmTag? = some (some 128) ∧ (0 : ℚ) < 128) ∧
    ((loadMetadata envFlacBpm "/music/a.flac").bpm = 128 ∧
     (loadMetadata envFlacBpm "/music/a.flac").is_corrupt = false) :=
  ⟨⟨rfl, rfl, by decide, by decide, rfl, rfl, by norm_num⟩,
   tag_bpm_precedence envFlacBpm "/music/a.flac" 128 rfl rfl (by decide)
     (Or.inl ⟨by decide, rfl, rfl⟩) (by norm_num)⟩

/-- A complete, well-formed collection entry with one hot cue. -/
def entryGood : NMLEntry :=
  { id? := some "T1", primarykey? := none
    title? := some (some "Song"), artist? := some (some "Artist")
    tempo? := some { bpm? := some 120, quality? := none }
    key? := some { value? := some "C" }
    location? := some { file? := some "m/a.mp3", volume? := none, dir? := none }
    info? := some { genre? := some "House", playtime? := some "300"
                    bitrate? := some "320000" }
    cues := [{ start? := some 10, type? := some 0, name? := some "Cue 1" }] }

/-- Like `entryGood` but its hot cue has an empty `NAME`. -/
def entryBadCue : NMLEntry :=
  { entryGood with id? := some "T2"
                   cues := [{ start? := some 5, type? := some 0, name? := some "" }] }

/-- **C10.** The Hierarchical→XML cue conversion is not total: a type-0
`CUE_V2` whose `NAME` is empty (no token for `name.split()[-1]`) or whose
last token is not a decimal integer makes `int(...)` raise, and the error
propagates out of the document conversion — the healthy first entry is not
emitted, the whole conversion aborts. -/
theorem cue_name_parse_aborts_conversion :
    convertNmlToRekordbox false
      { collection? := some [entryGood, entryBadCue], sets? := some [] } =
      .error "invalid hot cue NAME: int(name.split()[-1]) failed" ∧
    convCuesF false false
      [{ start? := some 5, type? := some 0, name? := some "Loop A" }] =
      .error "invalid hot cue NAME: int(name.split()[-1]) failed" := by
  constructor <;> decide

/-- **C3, counterexample.** With "map memory to hot cue" disabled, a type-2
memory-cue marker does not vanish: the reverse converter creates the
`CUE_V2` element (with `START` set) before the type dispatch, and the
`continue` leaves that residual element, with neither `TYPE` nor `NAME`,
in the output entry. -/
theorem memory_cue_leaves_residual_element :
    convCuesR false
      [{ start? := some 1, type? := some 2, name? := some "Memory 1"
         num? := some (-1), red? := some 0, green? := some 0
         blue? := some 255 }] =
      .ok [{ start? := some (q3 1), type? := none, name? := none }] ∧
    ([{ start? := some (q3 1), type? := none, name? := none }] : List CueV2) ≠ [] :=
  ⟨rfl, by simp⟩

/-- The shape of the one `CUE_V2` element the reverse converter emits for a
`POSITION_MARK`, by the mark's type. -/
def cueForMark (mapMem : Bool) (m : PosMark) (c : CueV2) : Prop :=
  (m.type?.getD 0 = 0 →
    c = ⟨some (q3 (m.start?.getD 0)), some 0, some (m.name?.getD "")⟩) ∧
  (m.type?.getD 0 = 1 →
    c = ⟨some (q3 (m.start?.getD 0)), some 1, some (m.name?.getD "")⟩) ∧
  (m.type?.getD 0 = 4 →
    c = ⟨some (q3 (m.start?.getD 0)), some 4, some "Grid"⟩) ∧
  (m.type?.getD 0 = 2 ∧ mapMem = false →
    c = ⟨some (q3 (m.start?.getD 0)), none, none⟩) ∧
  (m.type?.getD 0 = 2 ∧ mapMem = true →
    c = ⟨some (q3 (m.start?.getD 0)), some 0,
         some ("Hot Cue " ++ (lastTok (m.name?.getD "")).getD "")⟩)

theorem convCueR_ok (mapMem : Bool) (m : PosMark)
    (h : m.type?.getD 0 = 2 → mapMem = true →
      (lastTok (m.name?.getD "")).isSome) :
    ∃ c, convCueR mapMem m = .ok c ∧ cueForMark mapMem m c := by
  by_cases h0 : m.type?.getD 0 = 0
  · refine ⟨⟨some (q3 (m.start?.getD 0)), some 0, some (m.name?.getD "")⟩, ?_, ?_⟩
    · simp [convCueR, h0]
    · simp [cueForMark, h0]
  · by_cases h1 : m.type?.getD 0 = 1
    · refine ⟨⟨some (q3 (m.start?.getD 0)), some 1, some (m.name?.getD "")⟩, ?_, ?_⟩
      · simp [convCueR, h0, h1]
      · simp [cueForMark, h0, h1]
    · by_cases h2 : m.type?.getD 0 = 2
      · cases hm : mapMem with
        | false =>
          refine ⟨⟨some (q3 (m.start?.getD 0)), none, none⟩, ?_, ?_⟩
          · simp [convCueR, h0, h1, h2]
          · simp [cueForMark, h0, h1, h2]
        | true =>
          obtain ⟨tok, htok⟩ := Option.isSome_iff_exists.mp (h h2 hm)
          refine ⟨⟨some (q3 (m.start?.getD 0)), some 0,
                   some ("Hot Cue " ++ tok)⟩, ?_, ?_⟩
          · simp [convCueR, h0, h1, h2, htok]
          · simp [cueForMark, h0, h1, h2, htok]
      · by_cases h4 : m.type?.getD 0 = 4
        · refine ⟨⟨some (q3 (m.start?.getD 0)), some 4, some "Grid"⟩, ?_, ?_⟩
          · simp [convCueR, h0, h1, h2, h4]
          · simp [cueForMark, h0, h1, h2, h4]
        · refine ⟨⟨some (q3 (m.start?.getD 0)), none, none⟩, ?_, ?_⟩
          · simp [convCueR, h0, h1, h2, h4]
          · simp [cueForMark, h0, h1, h2, h4]

/-- **C3, amended.** XML→Hierarchical cue conversion: every
`POSITION_MARK` yields exactly one `CUE_V2` element (the output has the
same length as the input — nothing is dropped).  Types 0, 1, 4 map to 0,
1, 4; a type-2 memory cue becomes a relabeled type-0 hot cue when the
option is enabled, and with the option disabled it leaves a residual
element carrying only `START` (rather than producing no element). -/
theorem reverse_cue_mapping (mapMem : Bool) (marks : List PosMark)
    (h : ∀ m ∈ marks, m.type?.getD 0 = 2 → mapMem = true →
      (lastTok (m.name?.getD "")).isSome) :
    ∃ cues, convCuesR mapMem marks = .ok cues ∧
      cues.length = marks.length ∧
      List.Forall₂ (cueForMark mapMem) marks cues := by
  induction marks with
  | nil => exact ⟨[], rfl, rfl, List.Forall₂.nil⟩
  | cons m ms ih =>
    obtain ⟨c, hc, hrel⟩ := convCueR_ok mapMem m (h m (by simp))
    obtain ⟨cs, hcs, hlen, hall⟩ := ih (fun m' hm' => h m' (by simp [hm']))
    refine ⟨c :: cs, ?_, by simp [hlen], List.Forall₂.cons hrel hall⟩
    simp only [convCuesR, hc, hcs]
    rfl

theorem reverse_cue_mapping_witness :
    (∀ m ∈ ([{ start? := some 1, type? := some 2, name? := some "Memory 3"
               num? := none, red? := none, green? := none, blue? := none },
             { start? := some 2, type? := some 0, name? := some "Cue 1"
               num? := none, red? := none, green? := none, blue? := none }] :
              List PosMark),
       m.type?.getD 0 = 2 → true = true → (lastTok (m.name?.getD "")).isSome) ∧
    (∃ cues, convCuesR true
        [{ start? := some 1, type? := some 2, name? := some "Memory 3"
           num? := none, red? := none, green? := none, blue? := none },
         { start? := some 2, type? := some 0, name? := some "Cue 1"
           num? := none, red? := none, green? := none, blue? := none }] =
        .ok cues ∧
      cues.length = 2 ∧
      List.Forall₂ (cueForMark true)
        [{ start? := some 1, type? := some 2, name? := some "Memory 3"
           num? := none, red? := none, green? := none, blue? := none },
         { start? := some 2, type? := some 0, name? := some "Cue 1"
           num? := none, red? := none, green? := none, blue? := none }] cues) :=
  ⟨by decide, reverse_cue_mapping true _ (by decide)⟩

/-! ### C1: playlist identity remapping -/

theorem ok_bind {ε α β : Type} (a : α) (f : α → Except ε β) :
    (Except.ok a >>= f) = f a := rfl

theorem error_bind {ε α β : Type} (msg : ε) (f : α → Except ε β) :
    ((Except.error msg : Except ε α) >>= f) = .error msg := rfl

/-- A successful Python-dict lookup comes from a stored binding. -/
theorem pyGet_mem {α β : Type} [BEq α] [LawfulBEq α]
    {l : List (α × β)} {k : α} {v : β} (h : pyGet l k = some v) :
    (k, v) ∈ l := by
  unfold pyGet at h
  rcases Option.map_eq_some'.mp h with ⟨p, hp, hv⟩
  have hmem : p ∈ l.reverse := List.mem_of_find?_eq_some hp
  have hkey := List.find?_some hp
  rw [List.mem_reverse] at hmem
  obtain ⟨k', v'⟩ := p
  simp only [] at hkey
  have h1 : k' = k := eq_of_beq hkey
  subst h1
  cases hv
  exact hmem

theorem convTrackF_trackID {mapHot : Bool} {i : Nat} {e : NMLEntry}
    {t : RBTrack} (h : convTrackF mapHot i e = .ok t) :
    t.trackID? = some (toString (i + 1)) := by
  unfold convTrackF at h
  split at h
  · split at h
    · exact Except.noConfusion h
    · rcases hm : convCuesF mapHot false e.cues with msg | marks <;>
        rw [hm] at h
      · exact Except.noConfusion h
      · cases h
        rfl
  · exact Except.noConfusion h

theorem convTracksF_ids (mapHot : Bool) :
    ∀ (i : Nat) (es : List NMLEntry) (ts : List RBTrack),
      convTracksF mapHot i es = .ok ts →
      ts.map (fun t => t.trackID?) =
        (idMapF i es).map (fun pr => some pr.2)
  | i, [], ts => by
    intro h
    cases h
    rfl
  | i, e :: es, ts => by
    intro h
    rcases hc : convTrackF mapHot i e with msg | t <;>
      simp only [convTracksF, hc, ok_bind, error_bind] at h
    · exact Except.noConfusion h
    rcases hr : convTracksF mapHot (i + 1) es with msg | ts' <;>
      rw [hr] at h <;> simp only [ok_bind, error_bind] at h
    · exact Except.noConfusion h
    cases h
    simp only [List.map, idMapF, convTrackF_trackID hc,
      convTracksF_ids mapHot (i + 1) es ts' hr]

theorem convTrackR_id {mapMem : Bool} {i : Nat} {t : RBTrack}
    {e : NMLEntry} (h : convTrackR mapMem i t = .ok e) :
    e.id? = some (uuidStr i) := by
  unfold convTrackR at h
  rcases hm : convCuesR mapMem t.marks with msg | cues <;> rw [hm] at h
  · exact Except.noConfusion h
  · cases h
    rfl

theorem convTracksR_ids (mapMem : Bool) :
    ∀ (i : Nat) (ts : List RBTrack) (es : List NMLEntry),
      convTracksR mapMem i ts = .ok es →
      es.map (fun e => e.id?) = (idMapR i ts).map (fun pr => some pr.2)
  | i, [], es => by
    intro h
    cases h
    rfl
  | i, t :: ts, es => by
    intro h
    rcases hc : convTrackR mapMem i t with msg | e <;>
      simp only [convTracksR, hc, ok_bind, error_bind] at h
    · exact Except.noConfusion h
    rcases hr : convTracksR mapMem (i + 1) ts with msg | es' <;>
      rw [hr] at h <;> simp only [ok_bind, error_bind] at h
    · exact Except.noConfusion h
    cases h
    simp only [List.map, idMapR, convTrackR_id hc,
      convTracksR_ids mapMem (i + 1) ts es' hr]

/-- Reverse direction of the identity-remapping property: every playlist
track node the XML→Hierarchical converter emits carries the `ID` of an
entry of the output collection. -/
theorem convertRekordboxToNml_no_dangling {mapMem : Bool}
    {rdoc : RBDoc} {outN : NMLDoc}
    (hR : convertRekordboxToNml mapMem rdoc = .ok outN) :
    ∀ pl ∈ (outN.sets?).getD [], ∀ ch ∈ pl.children,
      ∃ e ∈ (outN.collection?).getD [], e.id? = ch.key? := by
  intro pl hpl ch hch
  simp only [convertRekordboxToNml] at hR
  rcases hE : convTracksR mapMem 0 ((rdoc.collection?).getD [])
      with msg | entries <;>
    rw [hE] at hR <;> simp only [ok_bind, error_bind] at hR
  · exact Except.noConfusion hR
  cases hR
  simp only [Option.getD_some] at hpl
  rcases hroot : rdoc.root? with _ | root <;> simp only [hroot] at hpl
  · simp at hpl
  rcases List.mem_filterMap.mp hpl with ⟨node, hnode, hplEq⟩
  split at hplEq
  case isFalse => exact Option.noConfusion hplEq
  cases hplEq
  rcases List.mem_filterMap.mp hch with ⟨rid, hrid, hchEq⟩
  rcases hg : pyGet (idMapR 0 ((rdoc.collection?).getD [])) rid
      with _ | u <;> simp only [hg] at hchEq
  · exact Option.noConfusion hchEq
  split at hchEq
  case isFalse => exact Option.noConfusion hchEq
  cases hchEq
  have hv : some u ∈
      (idMapR 0 ((rdoc.collection?).getD [])).map (fun pr => some pr.2) :=
    List.mem_map.mpr ⟨(rid, u), pyGet_mem hg, rfl⟩
  rw [← convTracksR_ids mapMem 0 _ _ hE] at hv
  rcases List.mem_map.mp hv with ⟨e, he, heq⟩
  refine ⟨e, ?_, heq⟩
  rcases hcol : rdoc.collection? with _ | l <;>
    simp only [hcol, Option.getD_none, Option.getD_some, Option.map] at hE ⊢
  · cases hE
    exact absurd he (by simp)
  · exact he

/-- Forward direction: every playlist track reference the
Hierarchical→XML converter emits either matches an output collection
track's id, or is the placeholder `"0"`. -/
theorem convertNmlToRekordbox_placeholder {mapHot : Bool}
    {ndoc : NMLDoc} {outR : RBDoc}
    (hF : convertNmlToRekordbox mapHot ndoc = .ok outR) :
    ∀ root, outR.root? = some root → ∀ pl ∈ root.children,
      ∀ ref ∈ pl.trackRefs,
        (∃ t ∈ (outR.collection?).getD [], t.trackID? = ref) ∨
        ref = some "0" := by
  intro root hroot pl hpl ref href
  simp only [convertNmlToRekordbox] at hF
  rcases hE : convTracksF mapHot 0 ((ndoc.collection?).getD [])
      with msg | tracks <;>
    rw [hE] at hF <;> simp only [ok_bind, error_bind] at hF
  · exact Except.noConfusion hF
  cases hF
  rcases hsets : ndoc.sets? with _ | sets <;> simp only [hsets] at hroot
  · exact Option.noConfusion hroot
  simp only [Option.map] at hroot
  cases hroot
  rcases List.mem_filterMap.mp hpl with ⟨node, hnode, hplEq⟩
  split at hplEq
  case isFalse => exact Option.noConfusion hplEq
  cases hplEq
  rcases List.mem_filterMap.mp href with ⟨tn, htn, hrefEq⟩
  split at hrefEq
  case isFalse => exact Option.noConfusion hrefEq
  cases hrefEq
  rcases hg : pyGet (idMapF 0 ((ndoc.collection?).getD [])) tn.key? with _ | v
  · right
    rfl
  · left
    have hv : some v ∈
        (idMapF 0 ((ndoc.collection?).getD [])).map (fun pr => some pr.2) :=
      List.mem_map.mpr ⟨(tn.key?, v), pyGet_mem hg, rfl⟩
    rw [← convTracksF_ids mapHot 0 _ _ hE] at hv
    rcases List.mem_map.mp hv with ⟨t, htmem, heq⟩
    refine ⟨t, ?_, by simpa using heq⟩
    rcases hcol : ndoc.collection? with _ | l <;>
      simp only [hcol, Option.getD_none, Option.getD_some, Option.map] at hE ⊢
    · cases hE
      exact absurd htmem (by simp)
    · exact htmem

/-- **C1, amended.** Identity remapping of playlist references.  In the
XML→Hierarchical direction the claim holds: a reference is emitted only
when its source identity is in the table, so every emitted playlist node's
`KEY` is the `ID` of an entry of the output collection (nothing dangling).
In the Hierarchical→XML direction a reference whose source identity is
absent is *not* dropped: it is emitted with the placeholder `TrackID`
`"0"`; every emitted reference either matches an output collection track or
is that placeholder. -/
theorem playlist_identity_remapping (mapHot mapMem : Bool)
    (ndoc : NMLDoc) (outR : RBDoc) (rdoc : RBDoc) (outN : NMLDoc)
    (hF : convertNmlToRekordbox mapHot ndoc = .ok outR)
    (hR : convertRekordboxToNml mapMem rdoc = .ok outN) :
    (∀ pl ∈ (outN.sets?).getD [], ∀ ch ∈ pl.children,
       ∃ e ∈ (outN.collection?).getD [], e.id? = ch.key?) ∧
    (∀ root, outR.root? = some root → ∀ pl ∈ root.children,
       ∀ ref ∈ pl.trackRefs,
         (∃ t ∈ (outR.collection?).getD [], t.trackID? = ref) ∨
         ref = some "0") :=
  ⟨convertRekordboxToNml_no_dangling hR,
   convertNmlToRekordbox_placeholder hF⟩

def entryNoCue : NMLEntry := { entryGood with cues := [] }

/-- Hierarchical document with one track and a playlist referencing both
that track and a missing identity. -/
def ndocW : NMLDoc :=
  { collection? := some [entryNoCue]
    sets? := some [{ type? := some "PLAYLIST", name? := some "P"
                     children := [{ type? := some "TRACK", key? := some "T1" },
                                  { type? := some "TRACK", key? := some "MISSING" }] }] }

def rbW : RBTrack :=
  { trackID? := some "7", name? := some "N", artist? := some "A"
    album? := none, genre? := none, kind? := none, size? := none
    totalTime? := none, avgBpm? := some 120, bitRate? := none
    sampleRate? := none, location? := some "file://localhost/m/x.mp3"
    tonality? := none, rating? := none, tempo? := none, marks := [] }

/-- XML-catalog document with one track and a playlist referencing both
that track and a missing identity `"99"`. -/
def rdocW : RBDoc :=
  { collection? := some [rbW]
    root? := some { type? := some "0", name? := some "Root"
                    children := [{ type? := some "1", name? := some "Q"
                                   trackRefs := [some "7", some "99"] }] } }

def outRW : RBDoc :=
  { collection? := some
      [{ trackID? := some "1", name? := some "Song", artist? := some "Artist"
         album? := some "Unknown", genre? := some "House"
         kind? := some "MP3 File", size? := some "0"
         totalTime? := some "300", avgBpm? := some 120
         bitRate? := some "320000", sampleRate? := some "44100"
         location? := some "file://localhost/m/a.mp3"
         tonality? := some "C", rating? := some "0"
         tempo? := some { inizio := "0.000", bpm := 120, metro := "4/4"
                          battito := "1" }
         marks := [] }]
    root? := some { type? := some "0", name? := some "Root"
                    children := [{ type? := some "1", name? := some "P"
                                   trackRefs := [some "1", some "0"] }] } }

def outNW : NMLDoc :=
  { collection? := some
      [{ id? := some "uuid-0", primarykey? := none
         title? := some (some "N"), artist? := some (some "A")
         tempo? := some { bpm? := some 120, quality? := none }
         key? := some { value? := some "" }
         location? := some { file? := some "m\\x.mp3", volume? := none
                             dir? := none }
         info? := some { genre? := some "", playtime? := some "0"
                         bitrate? := some "320000" }
         cues := [] }]
    sets? := some [{ type? := some "PLAYLIST", name? := some "Q"
                     children := [{ type? := some "TRACK"
                                    key? := some "uuid-0" }] }] }

theorem playlist_identity_remapping_witness :
    (convertNmlToRekordbox false ndocW = .ok outRW ∧
     convertRekordboxToNml false rdocW = .ok outNW) ∧
    ((∀ pl ∈ (outNW.sets?).getD [], ∀ ch ∈ pl.children,
        ∃ e ∈ (outNW.collection?).getD [], e.id? = ch.key?) ∧
     (∀ root, outRW.root? = some root → ∀ pl ∈ root.children,
        ∀ ref ∈ pl.trackRefs,
          (∃ t ∈ (outRW.collection?).getD [], t.trackID? = ref) ∨
          ref = some "0")) :=
  ⟨⟨by decide, by decide⟩,
   playlist_identity_remapping false false ndocW outRW rdocW outNW
     (by decide) (by decide)⟩

/-- **C1, counterexample.** Hierarchical→XML with an empty collection and a
playlist referencing the unknown identity `"X"`: the reference is not
dropped — it is emitted with the placeholder `TrackID "0"`, so a playlist
entry with a placeholder identity does appear in the output document. -/
theorem dangling_reference_not_dropped_forward :
    convertNmlToRekordbox false
      { collection? := some []
        sets? := some [{ type? := some "PLAYLIST", name? := some "P"
                         children := [{ type? := some "TRACK"
                                        key? := some "X" }] }] } =
      .ok { collection? := some []
            root? := some { type? := some "0", name? := some "Root"
                            children := [{ type? := some "1"
                                           name? := some "P"
                                           trackRefs := [some "0"] }] } } ∧
    ([some "0"] : List (Option String)) ≠ [] := by
  constructor <;> decide

/-! ### C2: forward cue mapping -/

/-- The XML type-2 memory marker the forward converter emits for the first
hot cue: its name's numeric suffix is the cue's parsed suffix plus one. -/
def memoryMarkOf (c : CueV2) : PosMark :=
  { start? := some (q3 (c.start?.getD 0)), type? := some 2
    name? := some ("Memory " ++ toString (((parseHotNum (c.name?.getD "")).getD 0) + 1))
    num? := some (-1), red? := some 0, green? := some 0, blue? := some 255 }

/-- The XML type-0 hot-cue marker emitted for a hot cue. -/
def hotMarkOf (c : CueV2) : PosMark :=
  { start? := some (q3 (c.start?.getD 0)), type? := some 0
    name? := some ("Hot Cue " ++ toString (((parseHotNum (c.name?.getD "")).getD 0) + 1))
    num? := some (-1), red? := some 255, green? := some 0, blue? := some 0 }

/-- Behaviour of the forward cue loop for any state of the per-track
`first_hotcue_processed` flag: it succeeds, its type-0 output markers
correspond 1:1 and in order to the type-0 input cues, carrying the same
(formatted) start time, and its type-2 output is exactly one memory marker
for the first hot cue when the option is on and the flag not yet set. -/
theorem convCuesF_spec :
    ∀ (mapHot : Bool) (cues : List CueV2) (processed : Bool),
      (∀ c ∈ cues, c.type?.getD 0 = 0 → (parseHotNum (c.name?.getD "")).isSome) →
      ∃ marks, convCuesF mapHot processed cues = .ok marks ∧
        (marks.filter (fun m => m.type? == some 0)).map (fun m => m.start?) =
          (cues.filter (fun c => c.type?.getD 0 == 0)).map
            (fun c => some (q3 (c.start?.getD 0))) ∧
        marks.filter (fun m => m.type? == some 2) =
          (if mapHot = true ∧ processed = false then
            match cues.find? (fun c => c.type?.getD 0 == 0) with
            | some c => [memoryMarkOf c]
            | none => []
           else [])
  | mapHot, [], processed, _ =>
    ⟨[], rfl, rfl, by cases mapHot <;> cases processed <;> simp [convCuesF]⟩
  | mapHot, c :: cs, processed, h => by
    by_cases h0 : c.type?.getD 0 = 0
    · obtain ⟨n, hn⟩ := Option.isSome_iff_exists.mp (h c (by simp) h0)
      cases hp : processed with
      | false =>
        cases hm : mapHot with
        | true =>
          obtain ⟨marks', hconv, hf0, hf2⟩ :=
            convCuesF_spec true cs true (fun c' hc' h0' => h c' (by simp [hc']) h0')
          refine ⟨memoryMarkOf c :: hotMarkOf c :: marks', ?_, ?_, ?_⟩
          · simp [convCuesF, convCueF, h0, hn, hconv, ok_bind, memoryMarkOf,
                  hotMarkOf]
          · simp [List.filter_cons, memoryMarkOf, hotMarkOf, h0, hf0, hn]
          · simp [List.filter_cons, memoryMarkOf, hotMarkOf, h0, hn, List.find?_cons]
            simpa using hf2
        | false =>
          obtain ⟨marks', hconv, hf0, hf2⟩ :=
            convCuesF_spec false cs false (fun c' hc' h0' => h c' (by simp [hc']) h0')
          refine ⟨hotMarkOf c :: marks', ?_, ?_, ?_⟩
          · simp [convCuesF, convCueF, h0, hn, hconv, ok_bind, hotMarkOf]
          · simp [List.filter_cons, hotMarkOf, h0, hf0, hn]
          · simp [List.filter_cons, hotMarkOf, h0, hn]
            simpa using hf2
      | true =>
        obtain ⟨marks', hconv, hf0, hf2⟩ :=
          convCuesF_spec mapHot cs true (fun c' hc' h0' => h c' (by simp [hc']) h0')
        refine ⟨hotMarkOf c :: marks', ?_, ?_, ?_⟩
        · simp [convCuesF, convCueF, h0, hn, hconv, ok_bind, hotMarkOf]
        · simp [List.filter_cons, hotMarkOf, h0, hf0, hn]
        · simp [List.filter_cons, hotMarkOf, h0, hn]
          simpa using hf2
    · obtain ⟨marks', hconv, hf0, hf2⟩ :=
        convCuesF_spec mapHot cs processed (fun c' hc' h0' => h c' (by simp [hc']) h0')
      by_cases h1 : c.type?.getD 0 = 1
      · refine ⟨{ start? := some (q3 (c.start?.getD 0)), type? := some 1
                  name? := some (c.name?.getD ""), num? := some (-1)
                  red? := some 0, green? := some 255, blue? := some 0 } :: marks',
                ?_, ?_, ?_⟩
        · simp [convCuesF, convCueF, h0, h1, hconv, ok_bind]
        · simp [List.filter_cons, h0, hf0]
        · simp [List.filter_cons, h0, h1]
          simpa using hf2
      · by_cases h49 : c.type?.getD 0 = 4 ∨ c.type?.getD 0 = 9
        · refine ⟨{ start? := some (q3 (c.start?.getD 0)), type? := some 4
                    name? := some "Grid", num? := some (-1)
                    red? := some 0, green? := some 0, blue? := some 0 } :: marks',
                  ?_, ?_, ?_⟩
          · simp [convCuesF, convCueF, h0, h1, h49, hconv, ok_bind]
          · simp [List.filter_cons, h0, hf0]
          · simp [List.filter_cons, h0]
            simpa using hf2
        · refine ⟨{ start? := some (q3 (c.start?.getD 0)), type? := none
                    name? := none, num? := none, red? := none
                    green? := none, blue? := none } :: marks', ?_, ?_, ?_⟩
          · simp [convCuesF, convCueF, h0, h1, h49, hconv, ok_bind]
          · simp [List.filter_cons, h0, hf0]
          · simp [List.filter_cons, h0]
            simpa using hf2

/-- **C2.** Hierarchical→XML cue mapping per track (the flag starts clear
for each track): with the option on, the first type-0 cue is emitted twice
— once as a type-2 memory marker whose name's numeric suffix is the source
suffix plus 1, and once as a type-0 hot marker; every other hot cue (and
every hot cue with the option off) yields exactly one type-0 marker, in
order and with the same (3-decimal formatted) start time, as witnessed by
the filtered projections. -/
theorem forward_cue_mapping (mapHot : Bool) (cues : List CueV2)
    (h : ∀ c ∈ cues, c.type?.getD 0 = 0 →
      (parseHotNum (c.name?.getD "")).isSome) :
    ∃ marks, convCuesF mapHot false cues = .ok marks ∧
      (marks.filter (fun m => m.type? == some 0)).map (fun m => m.start?) =
        (cues.filter (fun c => c.type?.getD 0 == 0)).map
          (fun c => some (q3 (c.start?.getD 0))) ∧
      marks.filter (fun m => m.type? == some 2) =
        (if mapHot = true then
          match cues.find? (fun c => c.type?.getD 0 == 0) with
          | some c => [memoryMarkOf c]
          | none => []
         else []) := by
  obtain ⟨marks, h1, h2, h3⟩ := convCuesF_spec mapHot cues false h
  refine ⟨marks, h1, h2, ?_⟩
  simpa using h3

/-- Sample cue list: a loop followed by two hot cues. -/
def cuesW : List CueV2 :=
  [{ start? := some 3, type? := some 1, name? := some "Loop" },
   { start? := some 1, type? := some 0, name? := some "Cue 1" },
   { start? := some 2, type? := some 0, name? := some "Cue 2" }]

theorem forward_cue_mapping_witness :
    (∀ c ∈ cuesW, c.type?.getD 0 = 0 →
      (parseHotNum (c.name?.getD "")).isSome) ∧
    (∃ marks, convCuesF true false cuesW = .ok marks ∧
      (marks.filter (fun m => m.type? == some 0)).map (fun m => m.start?) =
        (cuesW.filter (fun c => c.type?.getD 0 == 0)).map
          (fun c => some (q3 (c.start?.getD 0))) ∧
      marks.filter (fun m => m.type? == some 2) =
        (if true = true then
          match cuesW.find? (fun c => c.type?.getD 0 == 0) with
          | some c => [memoryMarkOf c]
          | none => []
         else [])) :=
  ⟨by decide, forward_cue_mapping true cuesW (by decide)⟩

/-! ### C4: Hierarchical round trip -/

/-- Field preservation relation between a written track and the record read
back. -/
def roundTrips (t : TrackRec) (r : ReadTrack) : Prop :=
  r.title = some t.title ∧ r.artist = some t.artist ∧
  r.key = t.key ∧ r.bpm = t.bpm

theorem nmlRT_aux :
    ∀ (i : Nat) (ts : List TrackRec),
      (∀ t ∈ ts, t.file_path ≠ "" ∧ t.title ≠ "" ∧ t.artist ≠ "") →
      List.Forall₂ roundTrips ts
        (((addTracks i ts).map serializeParseEntry).filterMap readEntry)
  | _, [], _ => by simp [addTracks]
  | i, t :: ts, h => by
    obtain ⟨hfp, hti, har⟩ := h t (by simp)
    have ih := nmlRT_aux (i + 1) ts (fun t' ht' => h t' (by simp [ht']))
    simp only [addTracks, List.map_cons, List.filterMap_cons]
    have hre : readEntry (serializeParseEntry (addTrackEntry i t)) =
        some { id := uuidStr i, title := some t.title, artist := some t.artist
               bpm := t.bpm, key := t.key, file_path := t.file_path
               genre := t.genre } := by
      simp [readEntry, serializeParseEntry, addTrackEntry, normText,
            hfp, hti, har]
    rw [hre]
    exact List.Forall₂.cons ⟨rfl, rfl, rfl, rfl⟩ ih

/-- **C4, counterexample.** A track whose `file_path` is empty is written to
the document but dropped by `get_collection_tracks` (the `if
track['file_path']` guard), so the re-imported count differs from the
exported count. -/
theorem nml_round_trip_count_mismatch :
    nmlRoundTrip [initTrack ""] = [] ∧
    (nmlRoundTrip [initTrack ""]).length ≠
      ([initTrack ""] : List TrackRec).length := by
  constructor <;> decide

/-- **C4, amended.** For tracks whose `file_path`, `title` and `artist` are
all nonempty, exporting to the Hierarchical document and re-importing
yields the same number of records, and each record's title, artist and key
equal the written values with the BPM numerically equal.  (An empty
`file_path` is dropped on read; an empty title or artist comes back as a
missing text node, i.e. Python `None`.) -/
theorem nml_round_trip (ts : List TrackRec)
    (h : ∀ t ∈ ts, t.file_path ≠ "" ∧ t.title ≠ "" ∧ t.artist ≠ "") :
    (nmlRoundTrip ts).length = ts.length ∧
    List.Forall₂ roundTrips ts (nmlRoundTrip ts) := by
  have hall := nmlRT_aux 0 ts h
  have hrw : nmlRoundTrip ts =
      ((addTracks 0 ts).map serializeParseEntry).filterMap readEntry := rfl
  rw [hrw]
  exact ⟨hall.length_eq.symm, hall⟩

def trackW : TrackRec :=
  { initTrack "/music/a.mp3" with
      title := "T", artist := "A", key := "C", bpm := 128 }

theorem nml_round_trip_witness :
    (∀ t ∈ [trackW], t.file_path ≠ "" ∧ t.title ≠ "" ∧ t.artist ≠ "") ∧
    ((nmlRoundTrip [trackW]).length = 1 ∧
     List.Forall₂ roundTrips [trackW] (nmlRoundTrip [trackW])) :=
  ⟨by decide, nml_round_trip [trackW] (by decide)⟩

/-! ### C7: scan cancellation -/

theorem setDefaultMetadata_path (t : TrackRec) :
    (setDefaultMetadata t).file_path = t.file_path := rfl

theorem postAnalysis_path (env : PathEnv) (t : TrackRec) :
    (postAnalysis env t).file_path = t.file_path := by
  by_cases hc : t.is_corrupt <;> by_cases hb : t.bpm = 0 <;>
    by_cases hk : t.key = "" ∨ t.key = "Unknown" <;>
    simp [postAnalysis, hc, hb, hk]

theorem loadFlacMetadata_path (d : FlacData) (t : TrackRec) :
    (loadFlacMetadata d t).file_path = t.file_path := by
  by_cases hok : d.headerOk <;>
    rcases hb : d.bpmTag? with _ | _ | b <;>
    rcases hk : d.key? with _ | k <;>
    simp [loadFlacMetadata, setDefaultMetadata, hok, hb, hk]

theorem loadMp3Metadata_path (d : Mp3Data) (t : TrackRec) :
    (loadMp3Metadata d t).file_path = t.file_path := by
  by_cases hok : d.headerOk <;> by_cases htags : d.hasTags <;>
    rcases hb : d.tbpm? with _ | _ | b <;>
    rcases hk : d.tkey? with _ | k <;>
    simp [loadMp3Metadata, setDefaultMetadata, hok, htags, hb, hk]

theorem loadMp4Metadata_path (d : Mp4Data) (t : TrackRec) :
    (loadMp4Metadata d t).file_path = t.file_path := by
  by_cases hok : d.headerOk <;>
    rcases hb : d.tmpo? with _ | _ | b <;>
    simp [loadMp4Metadata, setDefaultMetadata, hok, hb]

theorem loadGenericMetadata_path (d : GenericData) (t : TrackRec) :
    (loadGenericMetadata d t).file_path = t.file_path := by
  by_cases hro : d.readOk <;> by_cases hn : d.isNone <;>
    by_cases htags : d.hasTags <;>
    simp [loadGenericMetadata, setDefaultMetadata, hro, hn, htags]

/-- `Track.__init__` stores the given path and `_load_metadata` never
rewrites it. -/
theorem loadMetadata_path (env : PathEnv) (p : String) :
    (loadMetadata env p).file_path = p := by
  have hdisp : ∀ t : TrackRec,
      ((if pyExtLower p = ".flac" then loadFlacMetadata env.flac t
        else if pyExtLower p = ".mp3" then loadMp3Metadata env.mp3 t
        else if pyExtLower p = ".m4a" ∨ pyExtLower p = ".aac" then
          loadMp4Metadata env.mp4 t
        else loadGenericMetadata env.generic t)).file_path = t.file_path := by
    intro t
    split
    · exact loadFlacMetadata_path _ _
    split
    · exact loadMp3Metadata_path _ _
    split
    · exact loadMp4Metadata_path _ _
    · exact loadGenericMetadata_path _ _
  by_cases h1 : env.present <;> by_cases h2 : env.readable <;>
    by_cases h3 : env.size < 1024 <;>
    simp [loadMetadata, h1, h2, h3, setDefaultMetadata, initTrack,
          postAnalysis_path, hdisp]

theorem scanProcessAux_eq (env : String → PathEnv) (k : Nat) :
    ∀ (files : List String) (processed : Nat),
      scanProcessAux env k processed files =
        (files.take (k - processed)).map (fun f => loadMetadata (env f) f)
  | [], processed => by simp [scanProcessAux]
  | f :: fs, processed => by
    by_cases hk : k ≤ processed
    · simp [scanProcessAux, hk, Nat.sub_eq_zero_of_le hk]
    · obtain ⟨m, hm⟩ : ∃ m, k - processed = m + 1 :=
        ⟨k - processed - 1, by omega⟩
      have hm' : k - (processed + 1) = m := by omega
      simp only [scanProcessAux, if_neg hk, hm, List.take_succ_cons,
        List.map_cons, scanProcessAux_eq env k fs (processed + 1), hm']

/-- **C7.** When cancellation is requested after `k` of the `n` discovered
files have been processed, the scan's track list is exactly the tracks of
the first `k` files, in processing order; under distinct discovered paths
no track appears twice, and nothing from after the cancellation point
appears. -/
theorem scan_cancellation (env : String → PathEnv) (k : Nat)
    (files : List String) (hk : k ≤ files.length) (hnd : files.Nodup) :
    scanProcess env k files =
      (files.take k).map (fun f => loadMetadata (env f) f) ∧
    (scanProcess env k files).length = k ∧
    ((scanProcess env k files).map (fun t => t.file_path)).Nodup := by
  have heq : scanProcess env k files =
      (files.take k).map (fun f => loadMetadata (env f) f) := by
    have h := scanProcessAux_eq env k files 0
    simpa [scanProcess] using h
  refine ⟨heq, ?_, ?_⟩
  · rw [heq]
    simp [List.length_take, Nat.min_eq_left hk]
  · rw [heq, List.map_map]
    have hfun : ((fun t : TrackRec => t.file_path) ∘
        fun f => loadMetadata (env f) f) =
        fun f => (loadMetadata (env f) f).file_path := rfl
    rw [hfun, List.map_congr_left (fun a _ => loadMetadata_path (env a) a)]
    simpa using hnd.sublist (List.take_sublist k files)

theorem scan_cancellation_witness :
    (2 ≤ (["/m/a.mp3", "/m/b.mp3", "/m/c.mp3"] : List String).length ∧
     (["/m/a.mp3", "/m/b.mp3", "/m/c.mp3"] : List String).Nodup) ∧
    (scanProcess (fun _ => envBase) 2 ["/m/a.mp3", "/m/b.mp3", "/m/c.mp3"] =
       (["/m/a.mp3", "/m/b.mp3", "/m/c.mp3"].take 2).map
         (fun f => loadMetadata envBase f) ∧
     (scanProcess (fun _ => envBase) 2
        ["/m/a.mp3", "/m/b.mp3", "/m/c.mp3"]).length = 2 ∧
     ((scanProcess (fun _ => envBase) 2
        ["/m/a.mp3", "/m/b.mp3", "/m/c.mp3"]).map
          (fun t => t.file_path)).Nodup) :=
  ⟨⟨by decide, by decide⟩,
   scan_cancellation (fun _ => envBase) 2 ["/m/a.mp3", "/m/b.mp3", "/m/c.mp3"]
     (by decide) (by decide)⟩

/-! ### C8: migration progress -/

/-- The per-track percent expression once `total = m + 1 > 0` is known. -/
theorem migratePercents_succ (m : Nat) :
    migratePercents (m + 1) =
      [0, 30] ++ ((List.range (m + 1)).map
        (fun i : ℕ => 30 + (i : ℚ) / ((m : ℚ) + 1) * 40)) ++ [70, 100] := by
  simp [migratePercents]

/-- **C8, amended.** The percent values `migrate_format` reports are
monotonically non-decreasing across a job: `0`, `30`, then
`30 + i/total·40` for each processed track, then `70`, `100`.  (They are
not all integers; see the counterexample.) -/
theorem migrate_percent_monotone (n : Nat) :
    List.Chain' (· ≤ ·) (migratePercents n) := by
  cases n with
  | zero =>
    show List.Chain' (· ≤ ·) [(0 : ℚ), 30, 70, 100]
    norm_num [List.chain'_cons, List.chain'_singleton]
  | succ m =>
    have hpos : (0 : ℚ) < (m : ℚ) + 1 := by positivity
    have hb0 : ∀ i : ℕ, (30 : ℚ) ≤ 30 + (i : ℚ) / ((m : ℚ) + 1) * 40 := by
      intro i
      have h : (0 : ℚ) ≤ (i : ℚ) / ((m : ℚ) + 1) * 40 := by positivity
      linarith
    have hb70 : ∀ i : ℕ, i < m + 1 →
        30 + (i : ℚ) / ((m : ℚ) + 1) * 40 ≤ 70 := by
      intro i hi
      have h0 : (i : ℚ) ≤ (m : ℚ) + 1 := by
        have h1 : (i : ℕ) ≤ m + 1 := by omega
        exact_mod_cast h1
      have h1 : (i : ℚ) / ((m : ℚ) + 1) ≤ 1 := by
        rw [div_le_one hpos]
        exact h0
      nlinarith
    have hmono : ∀ i j : ℕ, i < j →
        30 + (i : ℚ) / ((m : ℚ) + 1) * 40 ≤
        30 + (j : ℚ) / ((m : ℚ) + 1) * 40 := by
      intro i j hij
      have h : (i : ℚ) ≤ (j : ℚ) := by exact_mod_cast le_of_lt hij
      gcongr
    rw [migratePercents_succ]
    apply List.Pairwise.chain'
    rw [List.pairwise_append, List.pairwise_append]
    refine ⟨⟨?_, ?_, ?_⟩, ?_, ?_⟩
    · norm_num [List.pairwise_cons]
    · rw [List.pairwise_map]
      exact (List.pairwise_lt_range (m + 1)).imp (fun hij => hmono _ _ hij)
    · intro x hx y hy
      rcases List.mem_map.mp hy with ⟨i, _, rfl⟩
      have h30 := hb0 i
      rcases List.mem_cons.mp hx with rfl | hx
      · linarith
      · rcases List.mem_singleton.mp hx with rfl
        linarith
    · norm_num [List.pairwise_cons]
    · intro x hx y hy
      have hy' : y = 70 ∨ y = 100 := by
        rcases List.mem_cons.mp hy with rfl | hy
        · exact Or.inl rfl
        · exact Or.inr (List.mem_singleton.mp hy)
      have hx70 : x ≤ 70 := by
        rcases List.mem_append.mp hx with hx | hx
        · rcases List.mem_cons.mp hx with rfl | hx
          · norm_num
          · rcases List.mem_singleton.mp hx with rfl
            norm_num
        · rcases List.mem_map.mp hx with ⟨i, hi, rfl⟩
          exact hb70 i (List.mem_range.mp hi)
      rcases hy' with rfl | rfl
      · exact hx70
      · linarith

/-- **C8, counterexample.** In a job of 3 tracks the per-track percent
`30 + 1/3·40 = 130/3` is reported, and it is not an integer: the source
computes `30 + (i / total * 40)` in float arithmetic and passes it without
truncation. -/
theorem migrate_percent_not_integer :
    ∃ p ∈ migratePercents 3, ¬ ∃ z : ℤ, (z : ℚ) = p := by
  refine ⟨30 + (1 : ℚ) / 3 * 40, ?_, ?_⟩
  · simp [migratePercents, List.range_succ]
  · rintro ⟨z, hz⟩
    have h3 : (z : ℚ) * 3 = 130 := by rw [hz]; ring
    have h4 : (z * 3 : ℤ) = 130 := by exact_mod_cast h3
    omega

/-! ### C9: playlist-text path rewriting -/

theorem countDD_slash_cons (b : List Char) :
    countDD ('/' :: b) = countDD b := by
  cases b <;> simp [countDD]

theorem countDD_append_slash (a b : List Char) :
    countDD (a ++ '/' :: b) = countDD a + countDD b := by
  induction a using countDD.induct with
  | case1 => simpa [countDD] using countDD_slash_cons b
  | case2 c =>
    have h : ¬(c = '.' ∧ '/' = '.') := by simp
    simp [countDD, h, countDD_slash_cons]
  | case3 c d rest h ih =>
    simp [countDD, h] at ih ⊢
    omega
  | case4 c d rest h ih =>
    simpa [countDD, h] using ih

theorem countDD_join : ∀ (L : List (List Char)),
    countDD (joinData L) = (L.map countDD).sum
  | [] => rfl
  | [x] => by simp [joinData]
  | x :: y :: rest => by
    have ih := countDD_join (y :: rest)
    simp [joinData, countDD_append_slash, ih]

theorem sum_countDD_eq_countP : ∀ (L : List String),
    (∀ c ∈ L, c = ".." ∨ countDD c.data = 0) →
    ((L.map (fun c => countDD c.data)).sum =
      L.countP (fun c => c = ".."))
  | [], _ => rfl
  | c :: cs, h => by
    have ih := sum_countDD_eq_countP cs (fun c' hc' => h c' (by simp [hc']))
    rcases h c (by simp) with hc | hc
    · subst hc
      have h1 : countDD (String.data "..") = 1 := rfl
      simp [List.countP_cons, ih, h1, Nat.add_comm]
    · have hne : c ≠ ".." := by
        intro hcc
        rw [hcc] at hc
        simp [countDD] at hc
      simp [List.countP_cons, ih, hc, hne]

theorem normWalk_good : ∀ (l acc : List String),
    (∀ a ∈ acc, a ≠ "" ∧ a ≠ "." ∧ a ≠ "..") →
    ∀ x ∈ normWalk acc l, x ≠ "" ∧ x ≠ "." ∧ x ≠ ".."
  | [], acc, hacc => by
    intro x hx
    rw [normWalk, List.mem_reverse] at hx
    exact hacc x hx
  | c :: cs, acc, hacc => by
    intro x hx
    by_cases h1 : c = "" ∨ c = "."
    · rw [normWalk, if_pos h1] at hx
      exact normWalk_good cs acc hacc x hx
    · by_cases h2 : c = ".."
      · rw [normWalk, if_neg h1, if_pos h2] at hx
        exact normWalk_good cs (acc.drop 1)
          (fun a ha => hacc a (List.mem_of_mem_drop ha)) x hx
      · rw [normWalk, if_neg h1, if_neg h2] at hx
        refine normWalk_good cs (c :: acc) ?_ x hx
        intro a ha
        rcases List.mem_cons.mp ha with rfl | ha
        · exact ⟨fun h => h1 (Or.inl h), fun h => h1 (Or.inr h), h2⟩
        · exact hacc a ha

theorem absComps_good (p : String) :
    ∀ x ∈ absComps p, x ≠ "" ∧ x ≠ "." ∧ x ≠ ".." :=
  normWalk_good _ [] (by simp)

/-- **C9, counterexample.** A track whose file name contains `".."`
substrings: its relative path `../song..x..y.mp3` traverses only one
parent directory, yet the code counts three `".."` substrings and writes
the absolute path, where the claim demands the relative one. -/
theorem m3u_dotted_name_counterexample :
    emitM3uLine "/a/song..x..y.mp3" "/a/b" = "/a/song..x..y.mp3" ∧
    emitM3uLineSpec "/a/song..x..y.mp3" "/a/b" = "../song..x..y.mp3" ∧
    ("/a/song..x..y.mp3" : String) ≠ "../song..x..y.mp3" := by
  refine ⟨by decide, by decide, by decide⟩

/-- **C9, amended.** The emitted line is the relative path, except when it
starts with `".."` and contains more than two occurrences of the substring
`".."` — Python's `rel_path.count('..') > 2`, which also counts `".."`
inside file names — in which case the absolute path is written.  When no
component other than a parent marker contains `".."`, this coincides with
the claim's "more than two parent directories" rule. -/
theorem m3u_relative_path_policy (p b : String) (hp : p ≠ "")
    (hclean : ∀ c ∈ relComps p b, c ≠ ".." → countDD c.data = 0) :
    emitM3uLine p b = emitM3uLineSpec p b := by
  have hstruct : relComps p b =
      List.replicate
        ((absComps b).length - commonLen (absComps b) (absComps p)) ".." ++
      (absComps p).drop (commonLen (absComps b) (absComps p)) := rfl
  rcases hcomps : relComps p b with _ | ⟨c₀, cs⟩
  · simp [emitM3uLine, emitM3uLineSpec, pyRelpath, hcomps, hp, pyStartswith,
          List.isPrefixOf]
  · have hrel : pyRelpath p b = joinComps (c₀ :: cs) := by
      rw [pyRelpath, hcomps]
    have hmem : ∀ c ∈ c₀ :: cs, c = ".." ∨ countDD c.data = 0 := by
      intro c hc
      by_cases h : c = ".."
      · exact Or.inl h
      · exact Or.inr (hclean c (hcomps ▸ hc) h)
    have hcount : countDD (joinComps (c₀ :: cs)).data =
        (c₀ :: cs).countP (fun c => c = "..") := by
      show countDD (joinData ((c₀ :: cs).map String.data)) = _
      rw [countDD_join, List.map_map]
      exact sum_countDD_eq_countP (c₀ :: cs) hmem
    by_cases hc0 : c₀ = ".."
    · have hstart : pyStartswith (joinComps (c₀ :: cs)) ".." = true := by
        subst hc0
        cases cs <;> simp [pyStartswith, joinComps, joinData, List.isPrefixOf]
      by_cases h2 : 2 < (c₀ :: cs).countP (fun c => c = "..") <;>
        simp [emitM3uLine, emitM3uLineSpec, hp, hrel, hcomps, hstart,
              hcount, h2]
    · have hzero :
          (absComps b).length - commonLen (absComps b) (absComps p) = 0 := by
        by_contra hN
        obtain ⟨n, hn⟩ := Nat.exists_eq_succ_of_ne_zero hN
        rw [hcomps, hn, List.replicate_succ, List.cons_append] at hstruct
        injection hstruct with h1 _
        exact hc0 h1
      have hrest : c₀ :: cs =
          (absComps p).drop (commonLen (absComps b) (absComps p)) := by
        rw [← hcomps, hstruct, hzero, List.replicate_zero, List.nil_append]
      have hgood : ∀ c ∈ c₀ :: cs, c ≠ "" ∧ c ≠ "." ∧ c ≠ ".." := by
        intro c hc
        rw [hrest] at hc
        exact absComps_good p c (List.mem_of_mem_drop hc)
      have hk : (c₀ :: cs).countP (fun c => c = "..") = 0 := by
        rw [List.countP_eq_zero]
        intro c hc
        simpa using (hgood c hc).2.2
      have hDD0 : countDD c₀.data = 0 :=
        hclean c₀ (hcomps ▸ List.mem_cons_self c₀ cs) hc0
      have hne : c₀.data ≠ [] := by
        intro h
        refine (hgood c₀ (by simp)).1 ?_
        have hc : c₀ = ⟨[]⟩ := by
          cases c₀
          exact congrArg String.mk h
        rw [hc]
      have hstart : pyStartswith (joinComps (c₀ :: cs)) ".." = false := by
        show (List.isPrefixOf ['.', '.']
          (joinData ((c₀ :: cs).map String.data))) = false
        rcases hd : c₀.data with _ | ⟨ch1, tl⟩
        · exact absurd hd hne
        rcases tl with _ | ⟨ch2, tl2⟩
        · cases cs <;> simp [joinData, hd, List.isPrefixOf]
        · have hnd : ¬(ch1 = '.' ∧ ch2 = '.') := by
            intro hcc
            rw [hd] at hDD0
            simp [countDD, hcc] at hDD0
          cases cs <;> simp [joinData, hd, List.isPrefixOf] <;>
            exact fun h1 h2 => hnd ⟨h1.symm, h2.symm⟩
      simp [emitM3uLine, emitM3uLineSpec, hp, hrel, hcomps, hstart,
            hcount, hk]

theorem m3u_relative_path_policy_witness :
    (("/a/b/c/d/x.mp3" : String) ≠ "" ∧
     (∀ c ∈ relComps "/a/b/c/d/x.mp3" "/a/q", c ≠ ".." →
       countDD c.data = 0)) ∧
    emitM3uLine "/a/b/c/d/x.mp3" "/a/q" =
      emitM3uLineSpec "/a/b/c/d/x.mp3" "/a/q" :=
  ⟨⟨by decide, by decide⟩,
   m3u_relative_path_policy "/a/b/c/d/x.mp3" "/a/q" (by decide) (by decide)⟩

end DJMO
